import Mathlib

/-!
# Verification of the BAE audio engine core

Shallow embedding, in Lean 4, of the parts of the BAE audio engine that the
specification's claims are about:

* `Tools.MethodTable` (src/unnamed/part_000, `MethodTable.hpp`): the
  name-keyed runtime-dispatch table and its `CallMethod` operation.
* `Core.Node` (src/src/Engine/Core/Node.hpp): the graph node and its default
  generator/modifier combination rules.
* `Modifier.Echo` (src/unnamed/part_001, `Echo.cpp`): the integer-delay
  feedback comb filter.
* `Tools.Resampler` (src/src.old/Tools/Resampler.cpp): variable-rate linear
  interpolation over a recorded buffer with an optional loop window.
* `Generator.Triangle` (src/inc/OCAE/Types.hpp, `Triangle.cpp` portion): the
  triangle oscillator.
* `Modifier.Vocoder` (src/src/Engine/Modifiers/Vocoder.cpp): carrier
  frequency setup and the runtime offset parameter.
* `Generator.WAV` (src/unnamed/part_002, `WAV.cpp`): WAV loading failure
  behaviour and the silent-degradation policy of `Process`.

Floating-point amplitude values (`SampleType` = `float`, `Math_t` = `double`)
are modelled as exact rationals: the claims under study are about control
flow, indexing and algebraic structure, not rounding.
-/

set_option autoImplicit false

namespace BAE

/-- `SampleType` (a `float` in the C++ source), modelled as an exact rational. -/
abbrev SampleType := ℚ

/-- `Math_t` (a `double` in the C++ source), modelled as an exact rational. -/
abbrev Math_t := ℚ

/-- `StereoData`: one stereo frame, `std::tuple<SampleType, SampleType>`
(left, right). -/
abbrev StereoData := SampleType × SampleType

/-- The silent frame `StereoData(SampleType(0), SampleType(0))`. -/
def silence : StereoData := (0, 0)

/-! ## Tools::MethodTable (src/unnamed/part_000)

The C++ class stores `std::unordered_map<std::string, Void_fn> m_Table` where
`Void_fn = std::function<void(void*)>`: a callable that receives a pointer to
a packed argument tuple and may mutate it (mutation of the first packed
reference is the only return-value channel).  We model the opaque argument
bundle by a type parameter `α` and a callable by a function `α → α`.  An
`unordered_map` keeps at most one entry per key; an association list read
through `List.lookup` (first hit wins) models it, with registration keeping
names unique being the map's own invariant. -/

namespace Tools

/-- The dispatch table of one instance: method name → type-erased callable.
Callables take the packed argument bundle and return its (possibly mutated)
value. -/
structure MethodTable (α : Type) where
  m_Table : List (String × (α → α))

/-- `MethodTable::CallMethod(fn, args...)` packs the arguments into a tuple
and runs `m_Table.at(fn)` on a pointer to it.  `std::unordered_map::at`
throws `std::out_of_range` when `fn` is not a key — the documented
"method not found" lookup failure — and otherwise the registered callable is
invoked on the packed bundle.  The throw is modelled by `Except.error`. -/
def MethodTable.CallMethod {α : Type} (t : MethodTable α) (fn : String)
    (args : α) : Except String α :=
  match t.m_Table.lookup fn with
  | none => Except.error "method not found"
  | some f => Except.ok (f args)

end Tools

/-! ## Core::Node (src/src/Engine/Core/Node.hpp)

Only the header is under src/: it declares the three constructors and
documents their default interactors ("forwarding the generator's output",
"forwarding the modifier's output", "multiplying the generated sample by the
filtered sample") and `SendSample`.  The bodies live in a `Node.cpp` that is
not part of the provided sources, so the evaluation step is modelled from the
spec (see `Node.SendSample`). -/

namespace Core

/-- One graph node, at the instant one tick's `SendSample` runs: the optional
generator (its frame production for this tick, from internal state, so a
thunk), the optional modifier (its stateful transform applied to this tick's
input cell), the input cell contents, the output cell, and the current values
of the downstream targets' input cells. -/
structure Node where
  m_Generator : Option (Unit → StereoData)
  m_Modifier : Option (StereoData → StereoData)
  m_Input : StereoData
  m_Output : StereoData
  m_Targets : List StereoData

/-- Modelled from the spec: `Node.cpp` (the constructor and `SendSample`
bodies) is missing from src/; only the declarations and doc comments of
`Node.hpp` are present.  Per the spec and those doc comments, `SendSample`
evaluates the generator (no input) and the modifier (on the input cell),
combines them — generator-only forwards the generator's frame, modifier-only
forwards the modifier's frame, both present multiplies per channel — and
writes the result to the node's output cell and to every target's input
cell. -/
def Node.SendSample (n : Node) : Node :=
  let g := match n.m_Generator with
    | some gen => gen ()
    | none => silence
  let m := match n.m_Modifier with
    | some md => md n.m_Input
    | none => silence
  let out := match n.m_Generator, n.m_Modifier with
    | some _, none => g
    | none, some _ => m
    | some _, some _ => (g.1 * m.1, g.2 * m.2)
    | none, none => silence
  { n with m_Output := out, m_Targets := n.m_Targets.map fun _ => out }

end Core

/-! ## Modifier::Echo (src/unnamed/part_001)

`Echo::Echo(sample_delay, decay)` initializes `m_Echo`, a
`std::deque<StereoData>`, to `sample_delay` copies of the zero frame, and
stores the decay ratio.  `FilterSample` reads and pops the front, forms
`out = wet·ratio + dry` per channel, pushes `out` at the back and returns it.
The deque is modelled as a list with its front at the head. -/

namespace Modifier

/-- The echo modifier's state: the delay deque (front at head) and the decay
ratio. -/
structure Echo where
  m_Echo : List StereoData
  m_Decay : Math_t

/-- `Echo::Echo(sample_delay, decay)`: the deque starts as
`sample_delay` default-constructed (silent) frames. -/
def Echo.ctor (sample_delay : ℕ) (decay : Math_t) : Echo :=
  ⟨List.replicate sample_delay silence, decay⟩

/-- `Echo::FilterSample(dry)`: `wet = m_Echo.front(); m_Echo.pop_front();
out = (wet.left·m_Decay + dry.left, wet.right·m_Decay + dry.right);
m_Echo.push_back(out); return out`.  `front`/`pop_front` on an empty deque
yield no element (undefined behaviour in C++), modelled by `none`. -/
def Echo.FilterSample (e : Echo) (dry : StereoData) :
    Option (StereoData × Echo) :=
  match e.m_Echo with
  | [] => none
  | wet :: rest =>
    let out : StereoData := (wet.1 * e.m_Decay + dry.1, wet.2 * e.m_Decay + dry.2)
    some (out, ⟨rest ++ [out], e.m_Decay⟩)

/-- The echo state after the first `k` calls of `FilterSample`, fed the input
stream `ins` (call `k` receives `ins k`).  A failed front/pop access leaves
the state unchanged (that case is never reached when the delay is ≥ 1). -/
def Echo.state (e : Echo) (ins : ℕ → StereoData) : ℕ → Echo
  | 0 => e
  | k + 1 =>
    match (Echo.state e ins k).FilterSample (ins k) with
    | some (_, e') => e'
    | none => Echo.state e ins k

/-- The frame returned by the `n`-th call of `FilterSample` (0-based) on the
input stream `ins`. -/
def Echo.out (e : Echo) (ins : ℕ → StereoData) (n : ℕ) : StereoData :=
  match (Echo.state e ins n).FilterSample (ins n) with
  | some (o, _) => o
  | none => silence

end Modifier

/-! ## Tools::Resampler (src/src.old/Tools/Resampler.cpp)

State: the recorded buffer `m_Data`, the fractional play cursor `m_Index`
(a `Math_t`), the per-call base increment
`m_IndexIncrement = SourceSampleRate · OCAE_INC_RATE`, the playback speed
multiplier, and a loop window `[m_LoopStart, m_LoopEnd)` of `uint64_t`
sample positions (`m_LoopEnd == 0` means no looping). -/

namespace Tools

/-- Modelled from the spec: the `Macro.hpp` defining `OCAE_SAMPLE_RATE` and
`OCAE_INC_RATE` is not under src/.  The spec's cursor advance is
`sourceSampleRate · tickDuration · playbackSpeed`, so `OCAE_INC_RATE` is the
engine tick duration, the reciprocal of the 48 kHz engine rate. -/
def OCAE_SAMPLE_RATE : ℕ := 48000

/-- `OCAE_INC_RATE`: the engine tick duration `1 / OCAE_SAMPLE_RATE`
(see `OCAE_SAMPLE_RATE`). -/
def OCAE_INC_RATE : Math_t := 1 / (OCAE_SAMPLE_RATE : ℚ)

/-- The C++ conversion `uint64_t(d)` / `size_t(d)` of a nonnegative double:
truncation toward zero, i.e. the floor for `d ≥ 0` (for negative `d` the C++
conversion is undefined behaviour; the model returns 0 there and no theorem
relies on that case). -/
def uint64Of (q : ℚ) : ℕ := (⌊q⌋).toNat

/-- `uint64_t` subtraction `a - b` (wrap-around mod 2^64), for operands below
2^64. -/
def usub64 (a b : ℕ) : ℕ := (a + 2 ^ 64 - b) % 2 ^ 64

/-- The resampler state of `Resampler.hpp`/`Resampler.cpp` (src.old). -/
structure Resampler where
  m_Data : List StereoData
  m_Index : Math_t
  m_IndexIncrement : Math_t
  m_PlaybackSpeed : Math_t
  m_LoopStart : ℕ
  m_LoopEnd : ℕ

/-- `Resampler::Resampler(AudioData, SourceSampleRate, LoopStart, LoopEnd)`:
cursor 0, increment `SourceSampleRate · OCAE_INC_RATE`, playback speed 1. -/
def Resampler.ctor (AudioData : List StereoData) (SourceSampleRate : ℤ)
    (LoopStart LoopEnd : ℕ) : Resampler :=
  ⟨AudioData, 0, (SourceSampleRate : ℚ) * OCAE_INC_RATE, 1, LoopStart, LoopEnd⟩

/-- `Resampler::SetPlaybackSpeed(playback)`. -/
def Resampler.SetPlaybackSpeed (r : Resampler) (playback : Math_t) : Resampler :=
  { r with m_PlaybackSpeed := playback }

/-- `Resampler::Process()`, straight from the source: early-silent return
when the truncated cursor is at or past the buffer with no loop configured;
otherwise pick the interpolation partner `p1` (loop-wrapped when a loop is
configured and the cursor is at the last sample, clamped to the current
sample at the unlooped buffer end, the next sample otherwise), linearly
interpolate each channel by the cursor's fractional part, advance the cursor
by `m_IndexIncrement · m_PlaybackSpeed`, and wrap it back by
`m_LoopEnd - m_LoopStart` when it crossed a configured loop end.
`std::vector::operator[]` out of range is undefined behaviour in C++; the
model reads `silence` there, and no theorem relies on that case. -/
def Resampler.Process (r : Resampler) : StereoData × Resampler :=
  if r.m_Data.length ≤ uint64Of r.m_Index ∧ r.m_LoopEnd = 0 then
    (silence, r)
  else
    let fraction : SampleType := r.m_Index - (uint64Of r.m_Index : ℚ)
    let p1 : StereoData :=
      if r.m_Data.length ≤ uint64Of r.m_Index + 1 ∧ r.m_LoopEnd ≠ 0 then
        r.m_Data.getD (uint64Of (r.m_Index - (usub64 r.m_LoopEnd r.m_LoopStart : ℚ))) silence
      else if r.m_Data.length ≤ uint64Of r.m_Index + 1 then
        r.m_Data.getD (uint64Of r.m_Index) silence
      else
        r.m_Data.getD (uint64Of r.m_Index + 1) silence
    let x1 := r.m_Data.getD (uint64Of r.m_Index) silence
    let sample : StereoData :=
      (x1.1 + fraction * (p1.1 - x1.1), x1.2 + fraction * (p1.2 - x1.2))
    let newIndex := r.m_Index + r.m_IndexIncrement * r.m_PlaybackSpeed
    let wrapped :=
      if (r.m_LoopEnd : ℚ) ≤ newIndex ∧ r.m_LoopEnd ≠ 0 then
        newIndex - (usub64 r.m_LoopEnd r.m_LoopStart : ℚ)
      else newIndex
    (sample, { r with m_Index := wrapped })

/-- The outputs and final state of `n` consecutive `Process()` calls. -/
def Resampler.processRun (r : Resampler) : ℕ → List StereoData × Resampler
  | 0 => ([], r)
  | n + 1 =>
    let run := Resampler.processRun r n
    let step := run.2.Process
    (run.1 ++ [step.1], step.2)

/-- One call of the driver sequences the claims quantify over: a `Process()`
call or a `SetPlaybackSpeed(s)` call. -/
inductive ResamplerOp where
  | proc : ResamplerOp
  | setSpeed (s : Math_t) : ResamplerOp

/-- Run a sequence of `Process` / `SetPlaybackSpeed` calls, left to right. -/
def Resampler.runOps (r : Resampler) : List ResamplerOp → Resampler
  | [] => r
  | op :: ops =>
    Resampler.runOps
      (match op with
        | ResamplerOp.proc => r.Process.2
        | ResamplerOp.setSpeed s => r.SetPlaybackSpeed s) ops

end Tools

/-! ## Generator::Triangle (src/inc/OCAE/Types.hpp, the `Triangle.cpp` part)

State: the signed phase increment `m_Irate = 4·freq·INC_RATE` and the phase
accumulator `m_Inc` (default-initialized to 0). -/

namespace Generator

/-- The triangle oscillator's state. -/
structure Triangle where
  m_Irate : Math_t
  m_Inc : Math_t

/-- `Triangle::Triangle(freq)`: `m_Irate = 4·freq·INC_RATE`, `m_Inc = 0`. -/
def Triangle.ctor (freq : Math_t) : Triangle :=
  ⟨4 * freq * Tools.OCAE_INC_RATE, 0⟩

/-- `Triangle::SendSample()`: `m_Inc += m_Irate; if (m_Inc >= 1 || m_Inc <=
-1) { m_Irate = -m_Irate; m_Inc = (m_Inc >= 1) ? (2 - m_Inc) : (-2 - m_Inc);
} return MONO_TO_STEREO(m_Inc)` — the updated `m_Inc` written here in place
of the source's mutated accumulator. -/
def Triangle.SendSample (t : Triangle) : StereoData × Triangle :=
  if 1 ≤ t.m_Inc + t.m_Irate ∨ t.m_Inc + t.m_Irate ≤ -1 then
    if 1 ≤ t.m_Inc + t.m_Irate then
      ((2 - (t.m_Inc + t.m_Irate), 2 - (t.m_Inc + t.m_Irate)),
        ⟨-t.m_Irate, 2 - (t.m_Inc + t.m_Irate)⟩)
    else
      ((-2 - (t.m_Inc + t.m_Irate), -2 - (t.m_Inc + t.m_Irate)),
        ⟨-t.m_Irate, -2 - (t.m_Inc + t.m_Irate)⟩)
  else
    ((t.m_Inc + t.m_Irate, t.m_Inc + t.m_Irate), ⟨t.m_Irate, t.m_Inc + t.m_Irate⟩)

/-- The frames produced by `n` consecutive `SendSample()` calls, and the
final oscillator state. -/
def Triangle.sendRun (t : Triangle) : ℕ → List StereoData × Triangle
  | 0 => ([], t)
  | n + 1 =>
    let run := Triangle.sendRun t n
    let step := run.2.SendSample
    (run.1 ++ [step.1], step.2)

end Generator

/-! ## Modifier::Vocoder (src/src/Engine/Modifiers/Vocoder.cpp)

Carrier frequencies come from the file-scope table
`float freq[] = {220, 440, 660, 880}` (the `m_CentralFrequencies` use is
commented out in the source).  `OscSetup` constructs carrier `i` at
`freq[i] * m_Mu` with `m_Mu = 1` at construction time.  `SetOffset(p)` sets
`m_Mu = powf(2, p/1200)` and then walks the layer-2 nodes with
`freq[++counter] * m_Mu`, `counter` starting at 0 — the PRE-increment makes
node `i` read `freq[i+1]`.  The transcendental factor `2^(p/1200)` is
abstracted as the parameter `mu` (for `p = 0` it is exactly 1). -/

namespace Modifier

/-- The file-scope carrier frequency table `float freq[]` of `Vocoder.cpp`. -/
def vocoderFreq : List ℚ := [220, 440, 660, 880]

/-- The construction-time frequency of carrier `i`:
`freq[i] * m_Mu` (`Vocoder::OscSetup`, with `m_Mu = mu`; at construction
`m_Mu = 1`).  An out-of-bounds table read is `none`. -/
def Vocoder.OscSetupFreq (mu : ℚ) (i : ℕ) : Option ℚ :=
  (vocoderFreq[i]?).map fun f => f * mu

/-- The frequency `Vocoder::SetOffset` assigns to the carrier of the `i`-th
layer-2 node: `freq[++counter] * m_Mu` with `counter` starting at 0, i.e.
`freq[i+1] * mu`.  An out-of-bounds table read is `none`. -/
def Vocoder.SetOffsetFreq (mu : ℚ) (i : ℕ) : Option ℚ :=
  (vocoderFreq[i + 1]?).map fun f => f * mu

end Modifier

/-! ## Generator::WAV (src/unnamed/part_002)

`WAV::ParseWAV` hands the raw bytes to the external RIFF reader (binary
container decoding is an external collaborator per the spec), takes the
`fmt ` and `data` chunks, rejects a `fmt ` chunk whose size differs from
`sizeof(Tools::WAVHeader)` with the message
"Error reading WAVE data, malformed header chunk" and leaves `m_Resampler`
unset in that case; otherwise it decodes the data chunk per the header and
installs a resampler over it.  `WAV::Process()` delegates to the resampler
when one is installed and returns the silent frame otherwise. -/

namespace Generator

/-- Modelled from the spec: `WAVHeader.hpp` is not under src/.  The header is
the canonical 16-byte WAVE format chunk: `AudioFormat`, `ChannelCount`
(uint16), `SamplingRate`, `BytesPerSecond` (uint32), `BytesPerSample`,
`BitsPerSample` (uint16), little-endian. -/
structure WAVHeader where
  AudioFormat : ℕ
  ChannelCount : ℕ
  SamplingRate : ℕ
  BytesPerSecond : ℕ
  BytesPerSample : ℕ
  BitsPerSample : ℕ

/-- `sizeof(Tools::WAVHeader)`: 16 bytes (see `WAVHeader`). -/
def sizeofWAVHeader : ℕ := 16

/-- The unsigned value of one (signed, two's-complement) byte. -/
def byteU (b : ℤ) : ℕ := (b % 256).toNat

/-- Little-endian unsigned 16-bit read of two bytes. -/
def readU16 (b0 b1 : ℤ) : ℕ := byteU b0 + 256 * byteU b1

/-- Little-endian unsigned 32-bit read of four bytes. -/
def readU32 (b0 b1 b2 b3 : ℤ) : ℕ :=
  byteU b0 + 256 * byteU b1 + 65536 * byteU b2 + 16777216 * byteU b3

/-- Little-endian `int16_t` read of two bytes (the `reinterpret_cast` of the
sample pointer). -/
def readI16 (b0 b1 : ℤ) : ℤ :=
  if 32768 ≤ readU16 b0 b1 then (readU16 b0 b1 : ℤ) - 65536 else (readU16 b0 b1 : ℤ)

/-- The `reinterpret_cast<Tools::WAVHeader const *>(fmt.data())` view of the
format chunk's bytes (see `WAVHeader`; reads past the chunk are modelled as
byte 0, never exercised at the checked 16-byte size). -/
def parseWAVHeader (bytes : List ℤ) : WAVHeader :=
  ⟨readU16 (bytes.getD 0 0) (bytes.getD 1 0),
   readU16 (bytes.getD 2 0) (bytes.getD 3 0),
   readU32 (bytes.getD 4 0) (bytes.getD 5 0) (bytes.getD 6 0) (bytes.getD 7 0),
   readU32 (bytes.getD 8 0) (bytes.getD 9 0) (bytes.getD 10 0) (bytes.getD 11 0),
   readU16 (bytes.getD 12 0) (bytes.getD 13 0),
   readU16 (bytes.getD 14 0) (bytes.getD 15 0)⟩

/-- Modelled from the spec: `OCAE_SQRT_HALF` lives in the missing
`Macro.hpp`.  It is the `float` nearest √½ (its exact value matters to no
claim here; only the decode success path touches it). -/
def OCAE_SQRT_HALF : ℚ := 11863283 / 16777216

/-- One decoded frame read at the data-chunk cursor, per the
8-bit/16-bit × mono/stereo cases of the `WAV::ParseWAV` loop body
(`bytes` is the chunk from the cursor on; reads past its end are
out-of-bounds C++ reads, modelled as byte 0). -/
def WAV.decodeFrame (h : WAVHeader) (bytes : List ℤ) : StereoData :=
  if h.BitsPerSample = 8 then
    if h.ChannelCount = 1 then
      let v : ℚ := ((bytes.getD 0 0 * 256 : ℤ) : ℚ) * OCAE_SQRT_HALF / 32768
      (v, v)
    else
      (((bytes.getD 0 0 * 256 : ℤ) : ℚ) / 32768,
       ((bytes.getD 1 0 * 256 : ℤ) : ℚ) / 32768)
  else
    if h.ChannelCount = 1 then
      let v : ℚ := ((readI16 (bytes.getD 0 0) (bytes.getD 1 0) : ℤ) : ℚ)
        * OCAE_SQRT_HALF / 32768
      (v, v)
    else
      (((readI16 (bytes.getD 0 0) (bytes.getD 1 0) : ℤ) : ℚ) / 32768,
       ((readI16 (bytes.getD 2 0) (bytes.getD 3 0) : ℤ) : ℚ) / 32768)

/-- The `while (data < end)` decode loop: one frame per iteration, cursor
advanced by `BytesPerSample`.  (With `BytesPerSample = 0` the C++ loop never
terminates; the model still consumes one byte per iteration there — no claim
touches that case.) -/
def WAV.decodeData (h : WAVHeader) : List ℤ → List StereoData
  | [] => []
  | b :: rest =>
    WAV.decodeFrame h (b :: rest)
      :: WAV.decodeData h (rest.drop (h.BytesPerSample - 1))
termination_by l => l.length
decreasing_by
  simp only [List.length_drop, List.length_cons]
  omega

/-- The WAV generator's state: the optional resampler (`m_Resampler`, a null
shared pointer until a successful parse installs one). -/
structure WAV where
  m_Resampler : Option Tools.Resampler

/-- `WAV::WAV()`: `m_Resampler` left null. -/
def WAV.ctor : WAV := ⟨none⟩

/-- The `fmt ` and `data` chunks the external RIFF reader extracts from the
input bytes (container decoding is outside the core per the spec). -/
structure RIFFChunks where
  fmt : List ℤ
  data : List ℤ

/-- `WAV::ParseWAV(array, size)`: reject a format chunk whose size differs
from `sizeof(Tools::WAVHeader)`, reporting
"Error reading WAVE data, malformed header chunk" (modelled as the returned
message; the source prints it to `std::cerr`) and leaving the state
untouched; otherwise decode the data chunk and install a resampler at the
header's sampling rate with loop window `[0, AudioData.size()-1]`. -/
def WAV.ParseWAV (w : WAV) (riff : RIFFChunks) : WAV × Option String :=
  if riff.fmt.length ≠ sizeofWAVHeader then
    (w, some "Error reading WAVE data, malformed header chunk")
  else
    let header := parseWAVHeader riff.fmt
    let AudioData := WAV.decodeData header riff.data
    (⟨some (Tools.Resampler.ctor AudioData (header.SamplingRate : ℤ) 0
        (AudioData.length - 1))⟩, none)

/-- `WAV::Process()`: delegate to the resampler when one is installed,
return the silent frame otherwise. -/
def WAV.Process (w : WAV) : StereoData × WAV :=
  match w.m_Resampler with
  | some r => (r.Process.1, ⟨some r.Process.2⟩)
  | none => (silence, w)

/-- The outputs and final state of `n` consecutive `WAV::Process()` calls. -/
def WAV.processRun (w : WAV) : ℕ → List StereoData × WAV
  | 0 => ([], w)
  | n + 1 =>
    let run := WAV.processRun w n
    let step := run.2.Process
    (run.1 ++ [step.1], step.2)

end Generator

namespace Modifier

/-- Run invariant of the echo: after `k` calls the ratio is unchanged, the
deque still holds `D` frames, and slot `i` holds the silent initializer while
`k + i < D` and the output of call `k + i - D` afterwards. -/
theorem Echo.ctor_state_invariant (D : ℕ) (hD : 1 ≤ D) (r : Math_t)
    (ins : ℕ → StereoData) (k : ℕ) :
    (Echo.state (Echo.ctor D r) ins k).m_Decay = r ∧
    (Echo.state (Echo.ctor D r) ins k).m_Echo.length = D ∧
    ∀ i, i < D →
      ((Echo.state (Echo.ctor D r) ins k).m_Echo)[i]? =
        some (if k + i < D then silence
              else Echo.out (Echo.ctor D r) ins (k + i - D)) := by
  induction k with
  | zero =>
    refine ⟨rfl, by simp [Echo.state, Echo.ctor], fun i hi => ?_⟩
    simp [Echo.state, Echo.ctor, List.getElem?_replicate, hi]
  | succ k ih =>
    obtain ⟨hr, hlen, hget⟩ := ih
    cases hq : (Echo.state (Echo.ctor D r) ins k).m_Echo with
    | nil => rw [hq] at hlen; simp at hlen; omega
    | cons wet rest =>
      have hrest : rest.length = D - 1 := by
        rw [hq] at hlen; simp at hlen; omega
      have hstep : Echo.state (Echo.ctor D r) ins (k + 1) =
          ⟨rest ++ [Echo.out (Echo.ctor D r) ins k], r⟩ := by
        show (match (Echo.state (Echo.ctor D r) ins k).FilterSample (ins k) with
          | some (_, e') => e'
          | none => Echo.state (Echo.ctor D r) ins k) = _
        rw [Echo.out, Echo.FilterSample, hq, hr]
      refine ⟨by rw [hstep], by rw [hstep]; simp; omega, fun i hi => ?_⟩
      rw [hstep]
      by_cases hcase : i < D - 1
      · rw [List.getElem?_append_left (by omega)]
        have := hget (i + 1) (by omega)
        rw [hq] at this
        rw [show rest[i]? = (wet :: rest)[i + 1]? from
          (List.getElem?_cons_succ).symm, this]
        have harith : k + (i + 1) = k + 1 + i := by omega
        rw [harith]
      · have hieq : i = D - 1 := by omega
        rw [List.getElem?_append_right (by omega)]
        have : i - rest.length = 0 := by omega
        rw [this]
        have hk : ¬ (k + 1 + i < D) := by omega
        have hk2 : k + 1 + i - D = k := by omega
        simp [hk, hk2]

/-- The head of the deque before call `n` is silence while `n < D` and the
output of call `n - D` afterwards. -/
theorem Echo.ctor_state_head (D : ℕ) (hD : 1 ≤ D) (r : Math_t)
    (ins : ℕ → StereoData) (n : ℕ) :
    ((Echo.state (Echo.ctor D r) ins n).m_Echo)[0]? =
      some (if n < D then silence else Echo.out (Echo.ctor D r) ins (n - D)) := by
  have h := (Echo.ctor_state_invariant D hD r ins n).2.2 0 (by omega)
  simpa using h

end Modifier

/-! ### Claims C1 and C2 -/

/-- C1: for every `MethodTable` instance and every method name not registered
in that instance's table, `CallMethod` signals the "method not found" lookup
failure to the caller (the modelled `std::out_of_range` throw of
`unordered_map::at`), never returning normally as a silent no-op; and for
every registered name it invokes the registered callable on the packed
argument bundle. -/
theorem MethodTable_CallMethod_lookup_dichotomy {α : Type}
    (t : Tools.MethodTable α) (fn : String) (args : α) :
    (t.m_Table.lookup fn = none →
      t.CallMethod fn args = Except.error "method not found") ∧
    (∀ f, t.m_Table.lookup fn = some f →
      t.CallMethod fn args = Except.ok (f args)) := by
  refine ⟨fun h => ?_, fun f h => ?_⟩ <;>
    simp [Tools.MethodTable.CallMethod, h]

/-- Witness for C1 on a concrete one-entry table: an unregistered name fails
with the lookup error, the registered name runs its callable. -/
theorem MethodTable_CallMethod_lookup_dichotomy_witness :
    Tools.MethodTable.CallMethod ⟨[("SetFrequency", Nat.succ)]⟩ "GetFrequency" 1
        = Except.error "method not found" ∧
    Tools.MethodTable.CallMethod ⟨[("SetFrequency", Nat.succ)]⟩ "SetFrequency" 1
        = Except.ok 2 :=
  ⟨(MethodTable_CallMethod_lookup_dichotomy ⟨[("SetFrequency", Nat.succ)]⟩
      "GetFrequency" 1).1 rfl,
   (MethodTable_CallMethod_lookup_dichotomy ⟨[("SetFrequency", Nat.succ)]⟩
      "SetFrequency" 1).2 Nat.succ rfl⟩

/-- C2: the default combination rule of a `Node`.  A generator-only node's
`SendSample` writes the generator's frame unchanged, a modifier-only node
writes the modifier's output frame unchanged, and a node holding both writes
the per-channel product of the generator's and the modifier's frames — to its
output cell and to every downstream target — for all frames, zero and
negative amplitudes included. -/
theorem Node_SendSample_default_combination (g : Unit → StereoData)
    (md : StereoData → StereoData) (inp out₀ : StereoData)
    (tgts : List StereoData) :
    ((Core.Node.SendSample ⟨some g, none, inp, out₀, tgts⟩).m_Output = g () ∧
      (Core.Node.SendSample ⟨some g, none, inp, out₀, tgts⟩).m_Targets
        = tgts.map fun _ => g ()) ∧
    ((Core.Node.SendSample ⟨none, some md, inp, out₀, tgts⟩).m_Output = md inp ∧
      (Core.Node.SendSample ⟨none, some md, inp, out₀, tgts⟩).m_Targets
        = tgts.map fun _ => md inp) ∧
    ((Core.Node.SendSample ⟨some g, some md, inp, out₀, tgts⟩).m_Output
        = ((g ()).1 * (md inp).1, (g ()).2 * (md inp).2) ∧
      (Core.Node.SendSample ⟨some g, some md, inp, out₀, tgts⟩).m_Targets
        = tgts.map fun _ => ((g ()).1 * (md inp).1, (g ()).2 * (md inp).2)) := by
  refine ⟨⟨rfl, rfl⟩, ⟨rfl, rfl⟩, rfl, rfl⟩

/-! ### Claims C3 and C10 -/

/-- C3: for an echo with delay `D ≥ 1` (deque initialized to `D` silent
frames) and decay ratio `r`, the `n`-th call of `FilterSample` returns
`input n` while `n < D`, and per channel `output (n-D) · r + input n` once
`n ≥ D`, where `output` is the sequence `FilterSample` itself returned: each
call pops the oldest stored frame wet, returns `wet·r + dry`, and pushes the
result at the tail. -/
theorem Echo_FilterSample_comb_recurrence (D : ℕ) (hD : 1 ≤ D) (r : Math_t)
    (ins : ℕ → StereoData) (n : ℕ) :
    Modifier.Echo.out (Modifier.Echo.ctor D r) ins n =
      if n < D then ins n
      else ((Modifier.Echo.out (Modifier.Echo.ctor D r) ins (n - D)).1 * r + (ins n).1,
            (Modifier.Echo.out (Modifier.Echo.ctor D r) ins (n - D)).2 * r + (ins n).2) := by
  have hr := (Modifier.Echo.ctor_state_invariant D hD r ins n).1
  have hlen := (Modifier.Echo.ctor_state_invariant D hD r ins n).2.1
  have hhead := Modifier.Echo.ctor_state_head D hD r ins n
  cases hq : (Modifier.Echo.state (Modifier.Echo.ctor D r) ins n).m_Echo with
  | nil => rw [hq] at hlen; simp at hlen; omega
  | cons wet rest =>
    rw [hq] at hhead
    simp at hhead
    have hout : Modifier.Echo.out (Modifier.Echo.ctor D r) ins n
        = (wet.1 * r + (ins n).1, wet.2 * r + (ins n).2) := by
      rw [Modifier.Echo.out, Modifier.Echo.FilterSample, hq, hr]
    rw [hout, hhead]
    by_cases hn : n < D
    · simp [hn, silence]
    · simp [hn]

/-- Witness for C3 at `D = 1`, `r = 1/2`, constant input `(2, 3)`: the first
output is the dry input, the second mixes in the fed-back first output. -/
theorem Echo_FilterSample_comb_recurrence_witness :
    1 ≤ 1 ∧
    Modifier.Echo.out (Modifier.Echo.ctor 1 (1/2)) (fun _ => ((2 : ℚ), (3 : ℚ))) 1
      = (3, 9/2) := by
  refine ⟨le_refl 1, ?_⟩
  have h1 := Echo_FilterSample_comb_recurrence 1 (le_refl 1) (1/2)
    (fun _ => ((2 : ℚ), (3 : ℚ))) 1
  have h0 := Echo_FilterSample_comb_recurrence 1 (le_refl 1) (1/2)
    (fun _ => ((2 : ℚ), (3 : ℚ))) 0
  rw [if_neg (by omega)] at h1
  rw [if_pos (by omega)] at h0
  rw [h1, h0]
  norm_num

/-- C10: every successful `FilterSample` call removes exactly one frame at
the head of the delay deque and appends exactly one at the tail, so a deque
of length `D ≥ 1` keeps length `D`; the precondition `D ≥ 1` is necessary:
with `D = 0` the deque is empty from construction and the very first call's
`front`/`pop_front` access yields no element. -/
theorem Echo_FilterSample_queue_length_invariant (D : ℕ) (r : Math_t)
    (e : Modifier.Echo) (dry : StereoData) :
    (1 ≤ D → e.m_Echo.length = D →
      ∃ p, e.FilterSample dry = some p ∧
        p.2.m_Echo = e.m_Echo.tail ++ [p.1] ∧ p.2.m_Echo.length = D) ∧
    (Modifier.Echo.ctor 0 r).FilterSample dry = none := by
  constructor
  · intro hD hlen
    cases hq : e.m_Echo with
    | nil => rw [hq] at hlen; simp at hlen; omega
    | cons wet rest =>
      have hfs : e.FilterSample dry =
          some ((wet.1 * e.m_Decay + dry.1, wet.2 * e.m_Decay + dry.2),
            ⟨rest ++ [(wet.1 * e.m_Decay + dry.1, wet.2 * e.m_Decay + dry.2)],
             e.m_Decay⟩) := by
        rw [Modifier.Echo.FilterSample, hq]
      refine ⟨_, hfs, by simp [hq], ?_⟩
      rw [hq] at hlen
      simp at hlen ⊢
      omega
  · rfl

/-- Witness for C10 at `D = 1`, plus the empty-deque failure at `D = 0`. -/
theorem Echo_FilterSample_queue_length_invariant_witness :
    (∃ p, (Modifier.Echo.ctor 1 0).FilterSample ((1 : ℚ), (2 : ℚ)) = some p ∧
      p.2.m_Echo = (Modifier.Echo.ctor 1 0).m_Echo.tail ++ [p.1] ∧
      p.2.m_Echo.length = 1) ∧
    (Modifier.Echo.ctor 0 0).FilterSample ((1 : ℚ), (2 : ℚ)) = none :=
  ⟨(Echo_FilterSample_queue_length_invariant 1 0 (Modifier.Echo.ctor 1 0)
      ((1 : ℚ), (2 : ℚ))).1 (le_refl 1) rfl,
   (Echo_FilterSample_queue_length_invariant 1 0 (Modifier.Echo.ctor 1 0)
      ((1 : ℚ), (2 : ℚ))).2⟩

/-! ### Claims C4, C5 and C6 -/

/-- The cursor after one `Process()` call, in closed form: unchanged on the
early silent return, otherwise advanced by `m_IndexIncrement·m_PlaybackSpeed`
and wrapped back by the `uint64_t` difference `m_LoopEnd - m_LoopStart` when
it crossed a configured loop end. -/
theorem Resampler.Process_snd_index (r : Tools.Resampler) :
    r.Process.2.m_Index =
      if r.m_Data.length ≤ Tools.uint64Of r.m_Index ∧ r.m_LoopEnd = 0 then
        r.m_Index
      else if (r.m_LoopEnd : ℚ) ≤ r.m_Index + r.m_IndexIncrement * r.m_PlaybackSpeed
          ∧ r.m_LoopEnd ≠ 0 then
        r.m_Index + r.m_IndexIncrement * r.m_PlaybackSpeed
          - (Tools.usub64 r.m_LoopEnd r.m_LoopStart : ℚ)
      else
        r.m_Index + r.m_IndexIncrement * r.m_PlaybackSpeed := by
  rw [Tools.Resampler.Process]
  by_cases h : r.m_Data.length ≤ Tools.uint64Of r.m_Index ∧ r.m_LoopEnd = 0
  · rw [if_pos h, if_pos h]
  · rw [if_neg h, if_neg h]

/-- `Process()` touches no field but the cursor. -/
theorem Resampler.Process_snd_fields (r : Tools.Resampler) :
    r.Process.2.m_Data = r.m_Data ∧
    r.Process.2.m_IndexIncrement = r.m_IndexIncrement ∧
    r.Process.2.m_PlaybackSpeed = r.m_PlaybackSpeed ∧
    r.Process.2.m_LoopStart = r.m_LoopStart ∧
    r.Process.2.m_LoopEnd = r.m_LoopEnd := by
  rw [Tools.Resampler.Process]
  by_cases h : r.m_Data.length ≤ Tools.uint64Of r.m_Index ∧ r.m_LoopEnd = 0
  · rw [if_pos h]
    exact ⟨rfl, rfl, rfl, rfl, rfl⟩
  · rw [if_neg h]
    exact ⟨rfl, rfl, rfl, rfl, rfl⟩

/-- The `uint64_t` subtraction agrees with truncated subtraction in range. -/
theorem usub64_eq_sub (a b : ℕ) (hba : b ≤ a) (ha : a < 2 ^ 64) :
    Tools.usub64 a b = a - b := by
  unfold Tools.usub64
  omega

/-- C4: with no loop configured, once the truncated cursor is at or past the
buffer end every `Process()` call returns the silent frame and leaves the
whole resampler state, cursor included, unchanged — so any number of further
calls yields only silence, regardless of the playback speed stored in the
state. -/
theorem Resampler_Process_past_end_silent_forever (r : Tools.Resampler)
    (hle : r.m_LoopEnd = 0) (hidx : r.m_Data.length ≤ Tools.uint64Of r.m_Index)
    (n : ℕ) :
    r.processRun n = (List.replicate n silence, r) := by
  have hstep : r.Process = (silence, r) := by
    rw [Tools.Resampler.Process, if_pos ⟨hidx, hle⟩]
  induction n with
  | zero => rfl
  | succ n ih =>
    simp only [Tools.Resampler.processRun, ih, hstep, List.replicate_succ']

/-- Witness for C4: a one-frame buffer with the cursor already at 5 stays
silent and unmoved for three calls. -/
theorem Resampler_Process_past_end_silent_forever_witness :
    Tools.Resampler.processRun
        ⟨[((1 : ℚ), (1 : ℚ))], 5, 1, 1, 0, 0⟩ 3
      = (List.replicate 3 silence, ⟨[((1 : ℚ), (1 : ℚ))], 5, 1, 1, 0, 0⟩) :=
  Resampler_Process_past_end_silent_forever ⟨[((1 : ℚ), (1 : ℚ))], 5, 1, 1, 0, 0⟩
    rfl (by norm_num [Tools.uint64Of]) 3

/-- One `Process()` call at an exactly-integer cursor `k < length` with no
loop: the interpolation fraction is 0, so the output is sample `k`, and the
cursor advances by `m_IndexIncrement · m_PlaybackSpeed`. -/
theorem Resampler.Process_at_integer_cursor (r : Tools.Resampler) (k : ℕ)
    (hk : k < r.m_Data.length) (hidx : r.m_Index = (k : ℚ))
    (hle : r.m_LoopEnd = 0) :
    r.Process = (r.m_Data.getD k silence,
      { r with m_Index := (k : ℚ) + r.m_IndexIncrement * r.m_PlaybackSpeed }) := by
  have hu : Tools.uint64Of r.m_Index = k := by
    rw [hidx]
    simp [Tools.uint64Of]
  have hu2 : Tools.uint64Of ((k : ℕ) : ℚ) = k := by
    simp [Tools.uint64Of]
  rw [Tools.Resampler.Process, if_neg (by omega)]
  simp only [hidx, hu, hu2, hle, Nat.cast_zero, sub_self, zero_mul, add_zero,
    ne_eq, not_true_eq_false, and_false, if_false]

/-- The first `k ≤ length` calls on a resampler built at the engine rate
with the default speed 1.0 and no loop reproduce the first `k` buffer frames
and leave the cursor at exactly `k`. -/
theorem Resampler.ctor_unit_speed_run (data : List StereoData) (k : ℕ)
    (hk : k ≤ data.length) :
    Tools.Resampler.processRun
        (Tools.Resampler.ctor data (Tools.OCAE_SAMPLE_RATE : ℤ) 0 0) k
      = (data.take k,
         { Tools.Resampler.ctor data (Tools.OCAE_SAMPLE_RATE : ℤ) 0 0 with
             m_Index := (k : ℚ) }) := by
  induction k with
  | zero =>
    simp [Tools.Resampler.processRun, Tools.Resampler.ctor]
  | succ k ih =>
    have hk1 : k < data.length := by omega
    have hstate := ih (by omega)
    have hstep := Resampler.Process_at_integer_cursor
      { Tools.Resampler.ctor data (Tools.OCAE_SAMPLE_RATE : ℤ) 0 0 with
          m_Index := (k : ℚ) } k (by simpa [Tools.Resampler.ctor] using hk1)
      rfl (by simp [Tools.Resampler.ctor])
    simp only [Tools.Resampler.processRun, hstate, hstep]
    have hinc : (Tools.Resampler.ctor data (Tools.OCAE_SAMPLE_RATE : ℤ) 0
        0).m_IndexIncrement = 1 := by
      norm_num [Tools.Resampler.ctor, Tools.OCAE_INC_RATE, Tools.OCAE_SAMPLE_RATE]
    have hspd : (Tools.Resampler.ctor data (Tools.OCAE_SAMPLE_RATE : ℤ) 0
        0).m_PlaybackSpeed = 1 := rfl
    refine Prod.ext ?_ ?_
    · simp only [hinc, hspd]
      rw [List.take_succ]
      simp [Tools.Resampler.ctor, List.getD, List.getElem?_eq_getElem hk1]
    · simp only [hinc, hspd]
      norm_num

/-- C5: a resampler over a buffer, constructed with source sample rate equal
to the engine tick rate (so the per-call cursor increment is exactly 1), at
the default playback speed 1.0 and with no loop window, reproduces the
buffer exactly: the outputs of the first `length` calls are the buffer
frames themselves, and in particular the `n`-th call returns the `n`-th
frame for every `n < length`. -/
theorem Resampler_unit_speed_identity (data : List StereoData)
    (_hne : data ≠ []) :
    (Tools.Resampler.processRun
        (Tools.Resampler.ctor data (Tools.OCAE_SAMPLE_RATE : ℤ) 0 0)
        data.length).1 = data ∧
    ∀ n, n < data.length →
      (Tools.Resampler.processRun
          (Tools.Resampler.ctor data (Tools.OCAE_SAMPLE_RATE : ℤ) 0 0)
          data.length).1[n]? = data[n]? := by
  have h := Resampler.ctor_unit_speed_run data data.length le_rfl
  constructor
  · rw [h]
    simp
  · intro n hn
    rw [h]
    simp

/-- Witness for C5 on the two-frame buffer `[(1,2), (3,4)]`. -/
theorem Resampler_unit_speed_identity_witness :
    ([((1 : ℚ), (2 : ℚ)), ((3 : ℚ), (4 : ℚ))] : List StereoData) ≠ [] ∧
    (Tools.Resampler.processRun
        (Tools.Resampler.ctor [((1 : ℚ), (2 : ℚ)), ((3 : ℚ), (4 : ℚ))]
          (Tools.OCAE_SAMPLE_RATE : ℤ) 0 0) 2).1
      = [((1 : ℚ), (2 : ℚ)), ((3 : ℚ), (4 : ℚ))] :=
  ⟨by simp,
   (Resampler_unit_speed_identity [((1 : ℚ), (2 : ℚ)), ((3 : ℚ), (4 : ℚ))]
      (by simp)).1⟩

/-- Counterexample to C6 as stated: on a freshly constructed resampler
(cursor 0, engine-rate increment 1) a single `SetPlaybackSpeed(-1)` followed
by one `Process()` call drives the cursor to -1, strictly below 0 — the
claimed invariant `cursor ≥ 0` fails under negative playback speeds. -/
theorem Resampler_cursor_negative_on_reverse :
    ((Tools.Resampler.ctor [((1 : ℚ), (1 : ℚ))] (Tools.OCAE_SAMPLE_RATE : ℤ) 0
        0).SetPlaybackSpeed (-1)).Process.2.m_Index < 0 := by
  norm_num [Tools.Resampler.ctor, Tools.Resampler.SetPlaybackSpeed,
    Tools.Resampler.Process, Tools.uint64Of, Tools.OCAE_INC_RATE,
    Tools.OCAE_SAMPLE_RATE]

/-- C6 (amended): under every sequence of `Process` and `SetPlaybackSpeed`
calls whose speeds are all nonnegative, a resampler whose cursor, increment
and speed start nonnegative and whose loop window satisfies
`loopStart ≤ loopEnd < 2^64` keeps its cursor ≥ 0 after every operation;
and when a loop window is configured (`loopEnd ≠ 0`) a cursor advance that
crosses the loop end wraps back by `loopEnd - loopStart` into the window
instead of terminating.  (As stated, with negative speeds allowed, the
invariant is false: see the counterexample.) -/
theorem Resampler_cursor_nonneg_for_nonneg_speeds (r : Tools.Resampler)
    (ops : List Tools.ResamplerOp) (hidx : 0 ≤ r.m_Index)
    (hspd : 0 ≤ r.m_PlaybackSpeed) (hinc : 0 ≤ r.m_IndexIncrement)
    (hls : r.m_LoopStart ≤ r.m_LoopEnd) (hbound : r.m_LoopEnd < 2 ^ 64)
    (hops : ∀ s, Tools.ResamplerOp.setSpeed s ∈ ops → 0 ≤ s) :
    0 ≤ (Tools.Resampler.runOps r ops).m_Index ∧
    (r.m_LoopEnd ≠ 0 →
      (r.m_LoopEnd : ℚ) ≤ r.m_Index + r.m_IndexIncrement * r.m_PlaybackSpeed →
      r.Process.2.m_Index
        = r.m_Index + r.m_IndexIncrement * r.m_PlaybackSpeed
            - ((r.m_LoopEnd - r.m_LoopStart : ℕ) : ℚ)) := by
  constructor
  · induction ops generalizing r with
    | nil => exact hidx
    | cons op ops ih =>
      cases op with
      | setSpeed s =>
        refine ih (r.SetPlaybackSpeed s) hidx ?_ hinc hls hbound ?_
        · exact hops s (by simp)
        · intro t ht
          exact hops t (by simp [ht])
      | proc =>
        have hfields := Resampler.Process_snd_fields r
        have hnew : 0 ≤ r.Process.2.m_Index := by
          rw [Resampler.Process_snd_index r]
          by_cases h1 : r.m_Data.length ≤ Tools.uint64Of r.m_Index ∧ r.m_LoopEnd = 0
          · rw [if_pos h1]
            exact hidx
          · rw [if_neg h1]
            have hni : 0 ≤ r.m_Index + r.m_IndexIncrement * r.m_PlaybackSpeed :=
              add_nonneg hidx (mul_nonneg hinc hspd)
            by_cases h2 : (r.m_LoopEnd : ℚ) ≤ r.m_Index
                + r.m_IndexIncrement * r.m_PlaybackSpeed ∧ r.m_LoopEnd ≠ 0
            · rw [if_pos h2]
              rw [usub64_eq_sub r.m_LoopEnd r.m_LoopStart hls hbound]
              have hsub : ((r.m_LoopEnd - r.m_LoopStart : ℕ) : ℚ) ≤ (r.m_LoopEnd : ℚ) := by
                have hn : (r.m_LoopEnd - r.m_LoopStart : ℕ) ≤ r.m_LoopEnd :=
                  Nat.sub_le _ _
                exact_mod_cast hn
              linarith [h2.1]
            · rw [if_neg h2]
              exact hni
        refine ih r.Process.2 hnew ?_ ?_ ?_ ?_ ?_
        · rw [hfields.2.2.1]
          exact hspd
        · rw [hfields.2.1]
          exact hinc
        · rw [hfields.2.2.2.1, hfields.2.2.2.2]
          exact hls
        · rw [hfields.2.2.2.2]
          exact hbound
        · intro t ht
          exact hops t (by simp [ht])
  · intro hne hcross
    rw [Resampler.Process_snd_index r, if_neg (fun h => hne h.2),
      if_pos ⟨hcross, hne⟩, usub64_eq_sub r.m_LoopEnd r.m_LoopStart hls hbound]

/-- Witness for the amended C6: a looped three-frame resampler with cursor
3/2 stays nonnegative over one `Process` call, and that call wraps the
cursor from 5/2 back by `loopEnd - loopStart = 2` to 1/2. -/
theorem Resampler_cursor_nonneg_for_nonneg_speeds_witness :
    (0 ≤ (Tools.Resampler.runOps
        ⟨[((1 : ℚ), (1 : ℚ)), ((2 : ℚ), (2 : ℚ)), ((3 : ℚ), (3 : ℚ))],
          3/2, 1, 1, 0, 2⟩ [Tools.ResamplerOp.proc]).m_Index) ∧
    (Tools.Resampler.Process
        ⟨[((1 : ℚ), (1 : ℚ)), ((2 : ℚ), (2 : ℚ)), ((3 : ℚ), (3 : ℚ))],
          3/2, 1, 1, 0, 2⟩).2.m_Index = 1/2 := by
  have h := Resampler_cursor_nonneg_for_nonneg_speeds
    ⟨[((1 : ℚ), (1 : ℚ)), ((2 : ℚ), (2 : ℚ)), ((3 : ℚ), (3 : ℚ))], 3/2, 1, 1, 0, 2⟩
    [Tools.ResamplerOp.proc] (by norm_num) (by norm_num) (by norm_num)
    (by norm_num) (by norm_num) (by simp)
  refine ⟨h.1, ?_⟩
  rw [h.2 (by norm_num) (by norm_num)]
  norm_num

/-! ### Claims C7, C8 and C9 -/

/-- One `Triangle::SendSample()` call from a state with `|m_Irate| ≤ 2` and
`|m_Inc| ≤ 1` produces a frame in `[-1, 1]` (both channels equal) and
re-establishes both bounds. -/
theorem Triangle.SendSample_invariant (u : Generator.Triangle)
    (hirate : |u.m_Irate| ≤ 2) (hinc : |u.m_Inc| ≤ 1) :
    (-1 ≤ u.SendSample.1.1 ∧ u.SendSample.1.1 ≤ 1 ∧
      u.SendSample.1.2 = u.SendSample.1.1) ∧
    |u.SendSample.2.m_Irate| ≤ 2 ∧ |u.SendSample.2.m_Inc| ≤ 1 := by
  rw [abs_le] at hirate hinc
  rw [Generator.Triangle.SendSample]
  by_cases hc : 1 ≤ u.m_Inc + u.m_Irate ∨ u.m_Inc + u.m_Irate ≤ -1
  · rw [if_pos hc]
    by_cases hc2 : 1 ≤ u.m_Inc + u.m_Irate
    · rw [if_pos hc2]
      refine ⟨⟨?_, ?_, rfl⟩, ?_, ?_⟩
      · show -1 ≤ 2 - (u.m_Inc + u.m_Irate)
        linarith [hinc.2, hirate.2]
      · show 2 - (u.m_Inc + u.m_Irate) ≤ 1
        linarith
      · show |-u.m_Irate| ≤ 2
        rw [abs_neg, abs_le]
        exact hirate
      · show |2 - (u.m_Inc + u.m_Irate)| ≤ 1
        rw [abs_le]
        constructor <;> linarith [hinc.2, hirate.2]
    · rw [if_neg hc2]
      have hcc : u.m_Inc + u.m_Irate ≤ -1 := hc.resolve_left hc2
      refine ⟨⟨?_, ?_, rfl⟩, ?_, ?_⟩
      · show -1 ≤ -2 - (u.m_Inc + u.m_Irate)
        linarith
      · show -2 - (u.m_Inc + u.m_Irate) ≤ 1
        linarith [hinc.1, hirate.1]
      · show |-u.m_Irate| ≤ 2
        rw [abs_neg, abs_le]
        exact hirate
      · show |-2 - (u.m_Inc + u.m_Irate)| ≤ 1
        rw [abs_le]
        constructor <;> linarith [hinc.1, hirate.1]
  · rw [if_neg hc]
    push_neg at hc
    refine ⟨⟨?_, ?_, rfl⟩, ?_, ?_⟩
    · show -1 ≤ u.m_Inc + u.m_Irate
      linarith [hc.2]
    · show u.m_Inc + u.m_Irate ≤ 1
      linarith [hc.1]
    · show |u.m_Irate| ≤ 2
      rw [abs_le]
      exact hirate
    · show |u.m_Inc + u.m_Irate| ≤ 1
      rw [abs_le]
      constructor <;> linarith [hc.1, hc.2]

/-- Every frame of a `SendSample` run from a state with `|m_Irate| ≤ 2` and
`|m_Inc| ≤ 1` is in `[-1, 1]` with both channels equal, and the final state
keeps both bounds. -/
theorem Triangle.sendRun_invariant (t : Generator.Triangle)
    (h1 : |t.m_Irate| ≤ 2) (h2 : |t.m_Inc| ≤ 1) (n : ℕ) :
    (∀ s ∈ (Generator.Triangle.sendRun t n).1,
      -1 ≤ s.1 ∧ s.1 ≤ 1 ∧ s.2 = s.1) ∧
    |(Generator.Triangle.sendRun t n).2.m_Irate| ≤ 2 ∧
    |(Generator.Triangle.sendRun t n).2.m_Inc| ≤ 1 := by
  induction n with
  | zero => exact ⟨by simp [Generator.Triangle.sendRun], h1, h2⟩
  | succ n ih =>
    obtain ⟨hmem, hirate, hinc⟩ := ih
    have hstep := Triangle.SendSample_invariant
      (Generator.Triangle.sendRun t n).2 hirate hinc
    refine ⟨fun s hs => ?_, hstep.2.1, hstep.2.2⟩
    rw [show Generator.Triangle.sendRun t (n + 1)
        = ((Generator.Triangle.sendRun t n).1
            ++ [(Generator.Triangle.sendRun t n).2.SendSample.1],
           (Generator.Triangle.sendRun t n).2.SendSample.2) from rfl] at hs
    rcases List.mem_append.mp hs with hold | hnew
    · exact hmem s hold
    · rw [List.mem_singleton.mp hnew]
      exact hstep.1

/-- Counterexample to C7 as stated: the claim quantifies over every value of
`irate = 4·f·tickDuration`.  At `irate = 4` (frequency 48000 Hz, the engine
rate, so `4·f·tickDuration = 4`) the very first `SendSample` frame is `-2`
on both channels, strictly outside `[-1, 1]`. -/
theorem Triangle_SendSample_leaves_range_at_high_rate :
    (Generator.Triangle.ctor 48000).SendSample.1.1 < -1 := by
  norm_num [Generator.Triangle.ctor, Generator.Triangle.SendSample,
    Tools.OCAE_INC_RATE, Tools.OCAE_SAMPLE_RATE]

/-- C7 (amended): for every frequency whose phase-increment rate
`irate = 4·f·tickDuration` satisfies `|irate| ≤ 2` — that is, `|f|` at most
half the engine rate — every frame a `Triangle` oscillator produces lies
within `[-1, 1]` on both channels.  (For `|irate| > 2` the reflection
overshoots: see the counterexample at `irate = 4`.) -/
theorem Triangle_SendSample_range_bounded_rate (freq : Math_t)
    (hf : |4 * freq * Tools.OCAE_INC_RATE| ≤ 2) (n : ℕ) :
    ∀ s ∈ (Generator.Triangle.sendRun (Generator.Triangle.ctor freq) n).1,
      -1 ≤ s.1 ∧ s.1 ≤ 1 ∧ -1 ≤ s.2 ∧ s.2 ≤ 1 := by
  intro s hs
  have h := (Triangle.sendRun_invariant (Generator.Triangle.ctor freq)
    (by simpa [Generator.Triangle.ctor] using hf)
    (by simp [Generator.Triangle.ctor]) n).1 s hs
  refine ⟨h.1, h.2.1, ?_, ?_⟩
  · rw [h.2.2]
    exact h.1
  · rw [h.2.2]
    exact h.2.1

/-- Witness for the amended C7 at 440 Hz: the first produced frame is within
`[-1, 1]` on both channels. -/
theorem Triangle_SendSample_range_bounded_rate_witness :
    -1 ≤ (Generator.Triangle.ctor 440).SendSample.1.1 ∧
    (Generator.Triangle.ctor 440).SendSample.1.1 ≤ 1 ∧
    -1 ≤ (Generator.Triangle.ctor 440).SendSample.1.2 ∧
    (Generator.Triangle.ctor 440).SendSample.1.2 ≤ 1 :=
  Triangle_SendSample_range_bounded_rate 440
    (by rw [abs_le]; norm_num [Tools.OCAE_INC_RATE, Tools.OCAE_SAMPLE_RATE])
    1 (Generator.Triangle.ctor 440).SendSample.1
    (List.mem_singleton.mpr rfl)

/-- C8 fails on the code (an off-by-one slip): at offset `p = 0`, where
`m_Mu = powf(2, 0/1200) = 1` exactly, `SetOffset` walks the carriers with
`freq[++counter]` — PRE-increment — so carrier 0 is set to `freq[1]·1 = 440`
although its construction-time base frequency (`OscSetup`, `freq[0]·m_Mu`
with `m_Mu = 1`) is 220; and the fourth carrier's update reads `freq[4]`,
past the end of the four-entry table. -/
theorem Vocoder_SetOffset_off_by_one :
    Modifier.Vocoder.SetOffsetFreq 1 0 = some 440 ∧
    Modifier.Vocoder.OscSetupFreq 1 0 = some 220 ∧
    Modifier.Vocoder.SetOffsetFreq 1 0 ≠ Modifier.Vocoder.OscSetupFreq 1 0 ∧
    Modifier.Vocoder.SetOffsetFreq 1 3 = none := by
  refine ⟨?_, ?_, ?_, ?_⟩ <;>
    simp [Modifier.Vocoder.SetOffsetFreq, Modifier.Vocoder.OscSetupFreq,
      Modifier.vocoderFreq]

/-- C9: a format chunk of the wrong size makes `ParseWAV` report
"Error reading WAVE data, malformed header chunk" and return with the
generator state untouched — the resampler stays unset — and a generator
without a resampler answers every `Process()` call with the silent frame,
its state unchanged, so the decode fault never reaches the per-sample
path. -/
theorem WAV_ParseWAV_malformed_fmt_degrades_silent (w : Generator.WAV)
    (riff : Generator.RIFFChunks) (n : ℕ)
    (hfmt : riff.fmt.length ≠ Generator.sizeofWAVHeader) :
    Generator.WAV.ParseWAV w riff
      = (w, some "Error reading WAVE data, malformed header chunk") ∧
    (w.m_Resampler = none →
      Generator.WAV.processRun w n = (List.replicate n silence, w)) := by
  constructor
  · rw [Generator.WAV.ParseWAV, if_pos hfmt]
  · intro hres
    have hstep : w.Process = (silence, w) := by
      rw [Generator.WAV.Process, hres]
    induction n with
    | zero => rfl
    | succ n ih =>
      simp only [Generator.WAV.processRun, ih, hstep, List.replicate_succ']

/-- Witness for C9: an empty `fmt ` chunk on a fresh generator is rejected
with the error message, and two subsequent `Process()` calls both return
silence. -/
theorem WAV_ParseWAV_malformed_fmt_degrades_silent_witness :
    Generator.WAV.ParseWAV Generator.WAV.ctor ⟨[], []⟩
      = (Generator.WAV.ctor,
         some "Error reading WAVE data, malformed header chunk") ∧
    Generator.WAV.processRun Generator.WAV.ctor 2
      = (List.replicate 2 silence, Generator.WAV.ctor) := by
  have h := WAV_ParseWAV_malformed_fmt_degrades_silent Generator.WAV.ctor
    ⟨[], []⟩ 2 (by decide)
  exact ⟨h.1, h.2 rfl⟩

end BAE
